import Mathlib

/-!
Shallow embedding of the HTTP/HTTPS transport binding in src/index.js:
the option merging and event flow of HTTPClient.prototype.send, the
request callback installed by HTTPServer.prototype.listen, the listen
promise settlement logic, HTTPClient.prototype.disconnect, and the
runClients example driver.
-/

namespace HttpsSpec

/-- JavaScript values as far as the binding inspects them: undefined,
strings, numbers, and flat string-valued objects (used for header maps). -/
inductive JsVal where
  | undefined : JsVal
  | str : String → JsVal
  | num : Int → JsVal
  | obj : List (String × String) → JsVal
  deriving DecidableEq

/-- a JavaScript object, modelled as an insertion-ordered key/value list;
a later entry for a key shadows an earlier one, as in an object literal
built with spreads. -/
abbrev Obj := List (String × JsVal)

/-- JavaScript truthiness for the modelled values. -/
def truthy : JsVal → Bool
  | .undefined => false
  | .str s => !(s == "")
  | .num n => !(n == 0)
  | .obj _ => true

/-- the JavaScript "a || b" operator on modelled values. -/
def jsOr (a b : JsVal) : JsVal := if truthy a then a else b

/-- property lookup: the last entry for the key wins; a missing key reads
as undefined. -/
def objGet (o : Obj) (k : String) : JsVal :=
  match o.reverse.find? (fun p => p.1 == k) with
  | some p => p.2
  | none => .undefined

/-- whether the object has an own entry for the key. -/
def objHas (o : Obj) (k : String) : Bool := o.any (fun p => p.1 == k)

/-- the HTTPClient constructor option object (src/index.js lines 150-156):
the literal starts with method GET and spreads the user options over it. -/
def httpClientOptions (userOptions : Obj) : Obj :=
  [("method", JsVal.str "GET")] ++ userOptions

/-- the option object built at the top of HTTPClient.prototype.send
(src/index.js lines 169-176): spread of the constructor options, then the
call-time options, then explicit entries for hostname, port, path and
protocol computed with the || operator, constructor side first. -/
def mergeSendOptions (ctorOptions callOptions : Obj) : Obj :=
  ctorOptions ++ callOptions ++
    [ ("hostname", jsOr (objGet ctorOptions "hostname") (objGet callOptions "hostname")),
      ("port", jsOr (objGet ctorOptions "port") (objGet callOptions "port")),
      ("path", jsOr (jsOr (objGet ctorOptions "path") (objGet callOptions "path")) (JsVal.str "/")),
      ("protocol", jsOr (jsOr (objGet ctorOptions "protocol") (objGet callOptions "protocol")) (JsVal.str "http:")) ]

/-- lifecycle events dispatched through the event bus. A handle is the
transport socket, modelled as an optional identifier (none is the JS
null). Error events carry the error payload and the phase tag string. -/
inductive Ev where
  | connect (h : Option Nat)
  | receive (h : Option Nat) (data : String)
  | respond (h : Option Nat) (v : JsVal)
  | send (h : Option Nat) (options : Obj) (body : Option String)
  | disconnect (h : Option Nat)
  | errorEv (err : String) (tag : String)
  | handshake (h : Option Nat)
  deriving DecidableEq

/-- observable actions of one client send call: event emissions plus the
settlement of the returned promise. -/
inductive CAct where
  | emit (e : Ev)
  | resolveObj (o : Obj)
  | rejectErr (e : String)
  deriving DecidableEq

/-- body accumulation by repeated += starting from the empty string, as
done for the request body on the server (src/index.js lines 32-35) and
the response body on the client (src/index.js lines 185-189). -/
def accumulateBody (chunks : List String) : String :=
  chunks.foldl (fun acc c => acc ++ c) ""

/-- the response streaming loop of HTTPClient.prototype.send
(src/index.js lines 185-189): each chunk is appended to responseData and
a receive event is emitted with the socket handle and the chunk. -/
def streamChunks (h : Nat) (chunks : List String) : String × List CAct :=
  chunks.foldl
    (fun p c => (p.1 ++ c, p.2 ++ [CAct.emit (Ev.receive (some h) c)]))
    ("", [])

/-- the action trace of a client send whose response stream completes
without error (src/index.js lines 180-220): the send event is emitted
synchronously with a null handle before any response activity; on
response arrival connect is emitted with the socket; each chunk appends
to the accumulator and emits receive; on end, disconnect is emitted and
then the promise is resolved with statusCode, headers and data fields. -/
def sendSuccess (h : Nat) (options : Obj) (body : Option String)
    (status : Int) (headers : List (String × String)) (chunks : List String) : List CAct :=
  let st := streamChunks h chunks
  CAct.emit (Ev.send none options body)
    :: CAct.emit (Ev.connect (some h))
    :: st.2
    ++ [CAct.emit (Ev.disconnect (some h)),
        CAct.resolveObj
          [("statusCode", JsVal.num status),
           ("headers", JsVal.obj headers),
           ("data", JsVal.str st.1)]]

/-- the first promise settlement by resolution in an action trace
(later settlement attempts on an already settled promise are no-ops). -/
def firstResolve : List CAct → Option Obj
  | [] => none
  | CAct.resolveObj o :: _ => some o
  | _ :: rest => firstResolve rest

/-- the actions that happen strictly before the first resolution. -/
def beforeFirstResolve : List CAct → List CAct
  | [] => []
  | CAct.resolveObj _ :: _ => []
  | a :: rest => a :: beforeFirstResolve rest

/-- whether an action is the emission of a disconnect event. -/
def isDisconnectEmit : CAct → Bool
  | CAct.emit (Ev.disconnect _) => true
  | _ => false

/-- whether an action is a promise resolution. -/
def isResolveAct : CAct → Bool
  | CAct.resolveObj _ => true
  | _ => false

/-- the events emitted along an action trace, in order. -/
def emittedEvents (acts : List CAct) : List Ev :=
  acts.filterMap fun a =>
    match a with
    | CAct.emit e => some e
    | _ => none

/-- the wire-visible state of a server response object: status code, body
written so far, and whether end was called. -/
structure Res where
  statusCode : Int
  body : String
  ended : Bool
  deriving DecidableEq

/-- a response on which nothing has been written yet (Node default
status 200). -/
def freshRes : Res := { statusCode := 200, body := "", ended := false }

/-- res.end(s): writes s and ends the response; on an already ended
response nothing more reaches the wire. -/
def resEnd (r : Res) (s : String) : Res :=
  if r.ended then r else { r with body := r.body ++ s, ended := true }

/-- assignment to res.statusCode: wire-effective only while the response
has not been sent. -/
def setStatusCode (r : Res) (n : Int) : Res :=
  if r.ended then r else { r with statusCode := n }

/-- Modelled from the spec: ProtocolServer.processMessage (required from
../index.js, not under src/) invokes the application-supplied
processMessage handler with the accumulated body and the exchange
objects, and its awaited result either returns a JS value or throws.
A handler is modelled as a function from the body and the current
response state to the mutated response state together with either the
thrown error or the returned value. -/
abbrev PMHandler := String → Res → Res × Except String JsVal

/-- the processMessage handler that returns its body argument unchanged. -/
def echoHandler : PMHandler := fun data r => (r, Except.ok (JsVal.str data))

/-- the end-of-request branch of serverCallback (src/index.js lines
36-55): the body chunks are accumulated into data, connect and receive
are emitted (handleConnection maps to connect per the source comment;
event dispatch through the bus never throws back, per the event bus
contract), processMessage is awaited; a defined return value emits
respond and, when it is a string, is written with res.end; undefined
produces no respond event and no write; a thrown error is caught,
statusCode is set to 500 and a generic body is written with res.end, and
an error event tagged requestHandler is emitted. -/
def serverHandleEnd (pm : PMHandler) (h : Nat) (chunks : List String) (r0 : Res) :
    Res × List Ev :=
  let data := accumulateBody chunks
  let evs := [Ev.connect (some h), Ev.receive (some h) data]
  let step := pm data r0
  match step.2 with
  | Except.ok JsVal.undefined => (step.1, evs)
  | Except.ok (JsVal.str s) =>
      (resEnd step.1 s, evs ++ [Ev.respond (some h) (JsVal.str s)])
  | Except.ok v => (step.1, evs ++ [Ev.respond (some h) v])
  | Except.error e =>
      (resEnd (setStatusCode step.1 500) "Internal Server Error",
       evs ++ [Ev.errorEv e "requestHandler"])

/-- a settlement attempt on the listen promise. -/
inductive Settle where
  | resolvedS
  | rejectedS (e : String)
  deriving DecidableEq

/-- what the listening socket reports over time: a successful bind (the
listen callback fires) or a listener-level error. -/
inductive LEvt where
  | bound
  | errored (e : String)
  deriving DecidableEq

/-- the settlement attempts and error-channel events produced by the
listen promise executor for a sequence of listener events
(src/index.js lines 78-90): a successful bind resolves; every listener
error emits an error event tagged listen and then calls reject. -/
def listenerSettles : List LEvt → List Settle × List Ev
  | [] => ([], [])
  | LEvt.bound :: rest =>
      let p := listenerSettles rest
      (Settle.resolvedS :: p.1, p.2)
  | LEvt.errored e :: rest =>
      let p := listenerSettles rest
      (Settle.rejectedS e :: p.1, Ev.errorEv e "listen" :: p.2)

/-- the final state of a promise given its settlement attempts in order:
only the first attempt takes effect. -/
def futureState (attempts : List Settle) : Option Settle := attempts.head?

/-- the SSL branch of HTTPServer.prototype.listen (src/index.js lines
62-76): reading the key and cert files synchronously; a read failure is
caught and rejects the promise with the read error, and no server is
created or bound (the subsequent access to the null server throws inside
the executor, which is ignored because the promise is already settled);
when both reads succeed the HTTPS server is created, bound, and the
promise resolves. The Bool records whether a listener was bound. -/
def listenSSL (readKey readCert : Except String Unit) : List Settle × Bool :=
  match readKey with
  | Except.error e => ([Settle.rejectedS e], false)
  | Except.ok _ =>
      match readCert with
      | Except.error e => ([Settle.rejectedS e], false)
      | Except.ok _ => ([Settle.resolvedS], true)

/-- the per-client connection slot of HTTPClient: this.connection. -/
structure ClientState where
  connection : Option Nat
  deriving DecidableEq

/-- HTTPClient.prototype.disconnect (src/index.js lines 228-238): when a
connection is held it is ended, destroyed and the slot cleared, and only
then is the disconnect event emitted with this.connection, which is
already null; with no connection held, disconnect is emitted with an
explicit null. The function is total: no path throws. -/
def clientDisconnect (st : ClientState) : ClientState × Ev :=
  match st.connection with
  | some _ =>
      let st1 : ClientState := { connection := none }
      (st1, Ev.disconnect st1.connection)
  | none => (st, Ev.disconnect none)

/-- a step of straight-line JavaScript as runClients executes it:
introducing a binding, evaluating an identifier, or issuing the HTTP
request through postClient.sendRequest. -/
inductive RCStep where
  | defineId (n : String)
  | refId (n : String)
  | issueRequest
  deriving DecidableEq

/-- the identifiers in scope when the body of runClients starts
executing: module-level bindings of src/index.js, globals it uses, and
the four parameters. -/
def runClientsScope : List String :=
  ["http", "https", "net", "fs", "ProtocolServer", "ProtocolClient",
   "HTTPServer", "runServers", "HTTPClient", "runClients",
   "require", "module", "console", "JSON",
   "callbacks", "config", "data", "options"]

/-- the statements of runClients (src/index.js lines 302-348) as
identifier-resolution steps in source order: the postClient declaration,
five handler registrations that each evaluate the identifier httpClient
first (member access on the callee precedes argument evaluation), then
the try block that stringifies data and issues the request via
postClient.sendRequest. -/
def runClientsSteps : List RCStep :=
  [ RCStep.refId "HTTPClient", RCStep.refId "config", RCStep.defineId "postClient",
    RCStep.refId "httpClient", RCStep.refId "callbacks",
    RCStep.refId "httpClient", RCStep.refId "callbacks",
    RCStep.refId "httpClient", RCStep.refId "callbacks",
    RCStep.refId "httpClient", RCStep.refId "callbacks",
    RCStep.refId "httpClient", RCStep.refId "callbacks",
    RCStep.refId "JSON", RCStep.refId "data", RCStep.defineId "postData",
    RCStep.refId "postClient", RCStep.refId "options", RCStep.refId "postData",
    RCStep.issueRequest, RCStep.defineId "postResponse",
    RCStep.refId "console", RCStep.refId "postResponse",
    RCStep.refId "postClient" ]

/-- executes the steps: a reference to an identifier not in scope halts
with a ReferenceError carrying that identifier (the Option String);
the Bool records whether a request was issued before the halt. -/
def execClients (scope : List String) (issued : Bool) :
    List RCStep → Option String × Bool
  | [] => (none, issued)
  | RCStep.defineId n :: rest => execClients (n :: scope) issued rest
  | RCStep.refId n :: rest =>
      if scope.contains n then execClients scope issued rest
      else (some n, issued)
  | RCStep.issueRequest :: rest => execClients scope true rest

end HttpsSpec

namespace HttpsSpec

theorem objGet_mergeSendOptions_hostname (c r : Obj) :
    objGet (mergeSendOptions c r) "hostname" =
      jsOr (objGet c "hostname") (objGet r "hostname") := by
  simp [mergeSendOptions, objGet, List.reverse_append, List.find?]

theorem objGet_mergeSendOptions_port (c r : Obj) :
    objGet (mergeSendOptions c r) "port" =
      jsOr (objGet c "port") (objGet r "port") := by
  simp [mergeSendOptions, objGet, List.reverse_append, List.find?]

theorem objGet_mergeSendOptions_path (c r : Obj) :
    objGet (mergeSendOptions c r) "path" =
      jsOr (jsOr (objGet c "path") (objGet r "path")) (JsVal.str "/") := by
  simp [mergeSendOptions, objGet, List.reverse_append, List.find?]

theorem objGet_mergeSendOptions_protocol (c r : Obj) :
    objGet (mergeSendOptions c r) "protocol" =
      jsOr (jsOr (objGet c "protocol") (objGet r "protocol")) (JsVal.str "http:") := by
  simp [mergeSendOptions, objGet, List.reverse_append, List.find?]

end HttpsSpec

namespace HttpsSpec

/-- C1 (amended): in the request options used by HTTPClient.prototype.send,
the constructor-default values for hostname, port, path and protocol win
over the call-time requestOptions whenever the constructor supplies a
truthy value; the call-time value is used only when the constructor value
is falsy; and when neither layer supplies a truthy value, path falls back
to the root path and protocol to the http scheme. -/
theorem c1_send_option_priority (c r : Obj) :
    (truthy (objGet c "hostname") = true →
        objGet (mergeSendOptions c r) "hostname" = objGet c "hostname")
  ∧ (truthy (objGet c "hostname") = false →
        objGet (mergeSendOptions c r) "hostname" = objGet r "hostname")
  ∧ (truthy (objGet c "port") = true →
        objGet (mergeSendOptions c r) "port" = objGet c "port")
  ∧ (truthy (objGet c "port") = false →
        objGet (mergeSendOptions c r) "port" = objGet r "port")
  ∧ (truthy (objGet c "path") = true →
        objGet (mergeSendOptions c r) "path" = objGet c "path")
  ∧ (truthy (objGet c "path") = false → truthy (objGet r "path") = true →
        objGet (mergeSendOptions c r) "path" = objGet r "path")
  ∧ (truthy (objGet c "path") = false → truthy (objGet r "path") = false →
        objGet (mergeSendOptions c r) "path" = JsVal.str "/")
  ∧ (truthy (objGet c "protocol") = true →
        objGet (mergeSendOptions c r) "protocol" = objGet c "protocol")
  ∧ (truthy (objGet c "protocol") = false → truthy (objGet r "protocol") = true →
        objGet (mergeSendOptions c r) "protocol" = objGet r "protocol")
  ∧ (truthy (objGet c "protocol") = false → truthy (objGet r "protocol") = false →
        objGet (mergeSendOptions c r) "protocol" = JsVal.str "http:") := by
  refine ⟨?_, ?_, ?_, ?_, ?_, ?_, ?_, ?_, ?_, ?_⟩
  · intro h; simp [objGet_mergeSendOptions_hostname, jsOr, h]
  · intro h; simp [objGet_mergeSendOptions_hostname, jsOr, h]
  · intro h; simp [objGet_mergeSendOptions_port, jsOr, h]
  · intro h; simp [objGet_mergeSendOptions_port, jsOr, h]
  · intro h; simp [objGet_mergeSendOptions_path, jsOr, h]
  · intro h1 h2; simp [objGet_mergeSendOptions_path, jsOr, h1, h2]
  · intro h1 h2; simp [objGet_mergeSendOptions_path, jsOr, h1, h2]
  · intro h; simp [objGet_mergeSendOptions_protocol, jsOr, h]
  · intro h1 h2; simp [objGet_mergeSendOptions_protocol, jsOr, h1, h2]
  · intro h1 h2; simp [objGet_mergeSendOptions_protocol, jsOr, h1, h2]

/-- C1 witness: a concrete client whose constructor sets the hostname and
a call that tries to override it; the constructor value wins, the path
supplied only at call time is used, and the protocol falls back to http. -/
theorem c1_send_option_priority_witness :
    objGet (mergeSendOptions (httpClientOptions [("hostname", JsVal.str "h1")])
        [("hostname", JsVal.str "h2"), ("path", JsVal.str "/x")]) "hostname"
      = objGet (httpClientOptions [("hostname", JsVal.str "h1")]) "hostname"
  ∧ objGet (mergeSendOptions (httpClientOptions [("hostname", JsVal.str "h1")])
        [("hostname", JsVal.str "h2"), ("path", JsVal.str "/x")]) "path"
      = objGet [("hostname", JsVal.str "h2"), ("path", JsVal.str "/x")] "path"
  ∧ objGet (mergeSendOptions (httpClientOptions [("hostname", JsVal.str "h1")])
        [("hostname", JsVal.str "h2"), ("path", JsVal.str "/x")]) "protocol"
      = JsVal.str "http:" := by
  refine ⟨(c1_send_option_priority _ _).1 (by decide),
          (c1_send_option_priority _ _).2.2.2.2.2.1 (by decide) (by decide),
          (c1_send_option_priority _ _).2.2.2.2.2.2.2.2.2 (by decide) (by decide)⟩

/-- C1 counterexample: with a constructor-supplied hostname "ctor.example"
and a call-time hostname "call.example", the merged options keep the
constructor hostname, so the call-time value does not win as claimed. -/
theorem c1_counterexample :
    objGet (mergeSendOptions (httpClientOptions [("hostname", JsVal.str "ctor.example")])
        [("hostname", JsVal.str "call.example")]) "hostname"
      = JsVal.str "ctor.example"
  ∧ JsVal.str "ctor.example" ≠ JsVal.str "call.example" := by
  decide

end HttpsSpec

namespace HttpsSpec

theorem streamChunks_foldl (chunks : List String) (a : String) (acts : List CAct) (h : Nat) :
    chunks.foldl
        (fun p c => (p.1 ++ c, p.2 ++ [CAct.emit (Ev.receive (some h) c)])) (a, acts) =
      (chunks.foldl (fun acc c => acc ++ c) a,
       acts ++ chunks.map (fun c => CAct.emit (Ev.receive (some h) c))) := by
  induction chunks generalizing a acts with
  | nil => simp
  | cons c cs ih => simp [ih]

theorem streamChunks_spec (h : Nat) (chunks : List String) :
    streamChunks h chunks =
      (accumulateBody chunks, chunks.map (fun c => CAct.emit (Ev.receive (some h) c))) := by
  simp [streamChunks, accumulateBody, streamChunks_foldl]

theorem firstResolve_map_emit (f : String → Ev) (xs : List String) (m : List CAct) :
    firstResolve (xs.map (fun c => CAct.emit (f c)) ++ m) = firstResolve m := by
  induction xs with
  | nil => simp
  | cons x xs ih => simpa [firstResolve] using ih

theorem beforeFirstResolve_map_emit (f : String → Ev) (xs : List String) (m : List CAct) :
    beforeFirstResolve (xs.map (fun c => CAct.emit (f c)) ++ m) =
      xs.map (fun c => CAct.emit (f c)) ++ beforeFirstResolve m := by
  induction xs with
  | nil => simp
  | cons x xs ih => simpa [beforeFirstResolve] using ih

/-- C2 (amended): a client send whose response stream completes without
error resolves its promise with an object whose fields are statusCode,
headers and data, where data is the concatenation of all received chunks
in arrival order, and the disconnect event is emitted before the promise
is resolved. -/
theorem c2_send_resolution (h : Nat) (options : Obj) (body : Option String)
    (status : Int) (headers : List (String × String)) (chunks : List String) :
    ∃ o, firstResolve (sendSuccess h options body status headers chunks) = some o
      ∧ objGet o "statusCode" = JsVal.num status
      ∧ objGet o "headers" = JsVal.obj headers
      ∧ objGet o "data" = JsVal.str (accumulateBody chunks)
      ∧ (beforeFirstResolve (sendSuccess h options body status headers chunks)).any
          isDisconnectEmit = true := by
  refine ⟨[("statusCode", JsVal.num status), ("headers", JsVal.obj headers),
           ("data", JsVal.str (accumulateBody chunks))], ?_, ?_, ?_, ?_, ?_⟩
  · simp [sendSuccess, streamChunks_spec, firstResolve, firstResolve_map_emit]
  · simp [objGet, List.find?]
  · simp [objGet, List.find?]
  · simp [objGet, List.find?]
  · simp [sendSuccess, streamChunks_spec, beforeFirstResolve,
          beforeFirstResolve_map_emit, isDisconnectEmit]

/-- C2 counterexample: on a concrete completed call the resolved object
has no body field at all (reading body gives undefined); the concatenated
chunks are stored under the data field instead. -/
theorem c2_counterexample :
    (firstResolve (sendSuccess 7 [] none 200 [] ["he", "llo"])).map
        (fun o => objGet o "body") = some JsVal.undefined
  ∧ (firstResolve (sendSuccess 7 [] none 200 [] ["he", "llo"])).map
        (fun o => objGet o "data") = some (JsVal.str "hello") := by
  decide

/-- C8: within one successful client call, the emitted lifecycle events
are exactly send, then connect, then one receive per body chunk in
arrival order, then disconnect; the send event carries a null handle,
while connect, receive and disconnect carry the established socket. -/
theorem c8_client_event_order (h : Nat) (options : Obj) (body : Option String)
    (status : Int) (headers : List (String × String)) (chunks : List String) :
    emittedEvents (sendSuccess h options body status headers chunks) =
      Ev.send none options body :: Ev.connect (some h) ::
        (chunks.map (fun c => Ev.receive (some h) c) ++ [Ev.disconnect (some h)]) := by
  simp [sendSuccess, streamChunks_spec, emittedEvents, List.filterMap_append,
        List.filterMap_map, Function.comp]
  induction chunks with
  | nil => rfl
  | cons c cs ih => simpa using ih

end HttpsSpec

namespace HttpsSpec

/-- C3: with the echoing processMessage handler, the server writes exactly
the accumulated request body as the response body and ends the response,
for every list of inbound body chunks. -/
theorem c3_echo_roundtrip (h : Nat) (chunks : List String) :
    (serverHandleEnd echoHandler h chunks freshRes).1 =
      { statusCode := 200, body := accumulateBody chunks, ended := true } := by
  simp [serverHandleEnd, echoHandler, resEnd, freshRes]

/-- C4: when the processMessage handler throws, the exception is caught:
the event trace carries exactly one error event, tagged requestHandler
and holding the thrown error; when the response had not been sent at the
time of the throw, a 500 status with the generic body is written and the
response ended; when it had already been sent, nothing further reaches
the wire. The catch makes serverHandleEnd total, so no exception escapes
to terminate the server process. -/
theorem c4_request_handler_error (pm : PMHandler) (h : Nat) (chunks : List String)
    (e : String)
    (hthrow : (pm (accumulateBody chunks) freshRes).2 = Except.error e) :
    (serverHandleEnd pm h chunks freshRes).2 =
        [Ev.connect (some h), Ev.receive (some h) (accumulateBody chunks),
         Ev.errorEv e "requestHandler"]
  ∧ ((pm (accumulateBody chunks) freshRes).1.ended = false →
      (serverHandleEnd pm h chunks freshRes).1 =
        { statusCode := 500,
          body := (pm (accumulateBody chunks) freshRes).1.body ++ "Internal Server Error",
          ended := true })
  ∧ ((pm (accumulateBody chunks) freshRes).1.ended = true →
      (serverHandleEnd pm h chunks freshRes).1 =
        (pm (accumulateBody chunks) freshRes).1) := by
  refine ⟨?_, ?_, ?_⟩
  · simp [serverHandleEnd, hthrow]
  · intro hend
    simp [serverHandleEnd, hthrow, resEnd, setStatusCode, hend]
  · intro hend
    simp [serverHandleEnd, hthrow, resEnd, setStatusCode, hend]

/-- C4 witness: a handler that throws "boom" on the body "ping" produces
the connect, receive and requestHandler-tagged error events, and the
fresh response is completed as 500 with the generic body. -/
theorem c4_request_handler_error_witness :
    (serverHandleEnd (fun _ r => (r, Except.error "boom")) 5 ["pi", "ng"] freshRes).2 =
        [Ev.connect (some 5), Ev.receive (some 5) (accumulateBody ["pi", "ng"]),
         Ev.errorEv "boom" "requestHandler"]
  ∧ (serverHandleEnd (fun _ r => (r, Except.error "boom")) 5 ["pi", "ng"] freshRes).1 =
      { statusCode := 500, body := "Internal Server Error", ended := true } := by
  have H := c4_request_handler_error (fun _ r => (r, Except.error "boom")) 5
    ["pi", "ng"] "boom" rfl
  exact ⟨H.1, H.2.1 rfl⟩

/-- C7: for a handler that returns normally, a defined return value makes
the server emit respond with that value; exactly when the value is a
string it is also written with res.end; an undefined return value
produces neither a respond event nor any write. -/
theorem c7_respond_dispatch (pm : PMHandler) (h : Nat) (chunks : List String)
    (r1 : Res) (v : JsVal)
    (hret : pm (accumulateBody chunks) freshRes = (r1, Except.ok v)) :
    (v = JsVal.undefined →
        serverHandleEnd pm h chunks freshRes =
          (r1, [Ev.connect (some h), Ev.receive (some h) (accumulateBody chunks)]))
  ∧ (∀ s, v = JsVal.str s →
        serverHandleEnd pm h chunks freshRes =
          (resEnd r1 s,
           [Ev.connect (some h), Ev.receive (some h) (accumulateBody chunks),
            Ev.respond (some h) v]))
  ∧ ((v ≠ JsVal.undefined ∧ ∀ s, v ≠ JsVal.str s) →
        serverHandleEnd pm h chunks freshRes =
          (r1,
           [Ev.connect (some h), Ev.receive (some h) (accumulateBody chunks),
            Ev.respond (some h) v])) := by
  have h1 : (pm (accumulateBody chunks) freshRes).1 = r1 := by rw [hret]
  have h2 : (pm (accumulateBody chunks) freshRes).2 = Except.ok v := by rw [hret]
  refine ⟨?_, ?_, ?_⟩
  · rintro rfl; simp [serverHandleEnd, h1, h2]
  · rintro s rfl; simp [serverHandleEnd, h1, h2]
  · rintro ⟨hu, hs⟩
    cases v with
    | undefined => exact absurd rfl hu
    | str s => exact absurd rfl (hs s)
    | num n => simp [serverHandleEnd, h1, h2]
    | obj l => simp [serverHandleEnd, h1, h2]

/-- C7 witness: a handler returning the string "pong" on body "ping"
yields the respond event with that string and a response ended with it. -/
theorem c7_respond_dispatch_witness :
    serverHandleEnd (fun _ r => (r, Except.ok (JsVal.str "pong"))) 9 ["ping"] freshRes =
      (resEnd freshRes "pong",
       [Ev.connect (some 9), Ev.receive (some 9) (accumulateBody ["ping"]),
        Ev.respond (some 9) (JsVal.str "pong")]) :=
  (c7_respond_dispatch (fun _ r => (r, Except.ok (JsVal.str "pong"))) 9 ["ping"]
      freshRes (JsVal.str "pong") rfl).2.1 "pong" rfl

end HttpsSpec

namespace HttpsSpec

theorem errorEv_mem_listenerSettles (e : String) :
    ∀ l : List LEvt, LEvt.errored e ∈ l →
      Ev.errorEv e "listen" ∈ (listenerSettles l).2 := by
  intro l
  induction l with
  | nil => intro hl; cases hl
  | cons a l ih =>
    intro hl
    rcases List.mem_cons.mp hl with h | h
    · cases h
      simp [listenerSettles]
    · have hmem2 := ih h
      cases a with
      | bound => simpa [listenerSettles] using hmem2
      | errored e2 =>
        simp only [listenerSettles, List.mem_cons]
        exact Or.inr hmem2

/-- C5: when the listener binds successfully and a listener-level error is
reported afterwards, the error is forwarded through the error channel
tagged listen, while the listen promise stays resolved: the late reject
attempt cannot unsettle it, because only the first settlement counts. -/
theorem c5_listener_error_after_bind (rest : List LEvt) (e : String)
    (hmem : LEvt.errored e ∈ rest) :
    futureState (listenerSettles (LEvt.bound :: rest)).1 = some Settle.resolvedS
  ∧ Ev.errorEv e "listen" ∈ (listenerSettles (LEvt.bound :: rest)).2 := by
  constructor
  · simp [listenerSettles, futureState]
  · exact errorEv_mem_listenerSettles e (LEvt.bound :: rest)
      (List.mem_cons_of_mem _ hmem)

/-- C5 witness: a bind followed by one late listener error keeps the
promise resolved and emits the listen-tagged error event. -/
theorem c5_listener_error_after_bind_witness :
    futureState (listenerSettles (LEvt.bound :: [LEvt.errored "late"])).1 =
      some Settle.resolvedS
  ∧ Ev.errorEv "late" "listen" ∈
      (listenerSettles (LEvt.bound :: [LEvt.errored "late"])).2 :=
  c5_listener_error_after_bind [LEvt.errored "late"] "late" (by decide)

/-- C6: when reading the SSL key or cert file fails, the listen promise
is rejected with the read error and no listener is bound. -/
theorem c6_ssl_read_failure (readKey readCert : Except String Unit) (e : String)
    (hfail : readKey = Except.error e ∨
      (readKey = Except.ok () ∧ readCert = Except.error e)) :
    futureState (listenSSL readKey readCert).1 = some (Settle.rejectedS e)
  ∧ (listenSSL readKey readCert).2 = false := by
  rcases hfail with h | ⟨h1, h2⟩
  · subst h; simp [listenSSL, futureState]
  · subst h1; subst h2; simp [listenSSL, futureState]

/-- C6 witness: a nonexistent key path makes listen reject with the read
error, leaving nothing bound. -/
theorem c6_ssl_read_failure_witness :
    futureState (listenSSL (Except.error "ENOENT") (Except.ok ())).1 =
      some (Settle.rejectedS "ENOENT")
  ∧ (listenSSL (Except.error "ENOENT") (Except.ok ())).2 = false :=
  c6_ssl_read_failure (Except.error "ENOENT") (Except.ok ()) "ENOENT" (Or.inl rfl)

/-- C9: every call of the client disconnect emits the disconnect event
with a null handle, whether or not a connection was held, because a held
connection is ended, destroyed and cleared before the event is emitted;
the connection slot is always clear afterwards, and the function is
total, so the call never throws. -/
theorem c9_disconnect_null_handle (st : ClientState) :
    (clientDisconnect st).2 = Ev.disconnect none
  ∧ (clientDisconnect st).1.connection = none := by
  cases h : st.connection with
  | some n => simp [clientDisconnect, h]
  | none => simp [clientDisconnect, h]

/-- C10: executing the statements of runClients halts with a
ReferenceError on the identifier httpClient, which is not in scope, and
no request has been issued through postClient at that point. -/
theorem c10_runClients_reference_error :
    execClients runClientsScope false runClientsSteps = (some "httpClient", false) := by
  decide

end HttpsSpec
